import Mathlib

/-!
Verification of the gemini-ai-gent repository: an agent service (express
route `/generate` driving a langchain ReAct agent with a weather tool and a
code-execution tool) together with the js-executor sandbox service
(`evalAndCaptureOutput`). The sandbox, the tool handlers and the route
handler are shallowly embedded below; the behaviour of a submitted code
string under `eval` is abstracted as a trace of console writes, a final
outcome, and a running time.
-/

namespace GeminiAgent

/-- A console output handler: either a host output channel (the original
`console.log` / `console.error` functions writing to the terminal) or a
redirection pushing each write into an invocation-local buffer. -/
inductive Sink where
  | channel (id : Nat)
  | captureInto (buf : Nat)
  deriving DecidableEq

/-- The global `console` object of the Node process: its current `log` and
`error` handlers.  Mutable global state, reassigned by the sandbox for the
duration of one execution. -/
structure Console where
  log : Sink
  error : Sink
  deriving DecidableEq

/-- One console write performed by the evaluated code, in program order: a
`console.log` call or a `console.error` call, its arguments already joined
by a single space as the redirected handler does with `args.join`. -/
inductive Event where
  | log (line : String)
  | err (line : String)
  deriving DecidableEq

/-- How one evaluation of the submitted code ends: normal completion, or a
thrown error carrying a message. -/
inductive EvalOutcome where
  | normal
  | thrown (msg : String)
  deriving DecidableEq

/-- Abstract behaviour of a submitted code string under `eval`: the source
text (what the safety check inspects), the console writes it performs in
program order while running, how it ends, and how many wall-clock units it
runs for.  The sandbox source never consults the duration. -/
structure Program where
  src : String
  events : List Event
  outcome : EvalOutcome
  duration : Nat
  deriving DecidableEq

/-- The value returned by `evalAndCaptureOutput` and forwarded by the
sandbox HTTP route: `{ stdout, stderr }`. -/
structure ExecResult where
  stdout : String
  stderr : String
  deriving DecidableEq

/-- JavaScript `includes` over character lists: `listIncludes pat l` is
true iff `pat` occurs contiguously inside `l`. -/
def listIncludes (pat : List Char) : List Char → Bool
  | [] => pat.isEmpty
  | c :: rest => pat.isPrefixOf (c :: rest) || listIncludes pat rest

/-- JavaScript `s.includes(pat)` on strings. -/
def strIncludes (s pat : String) : Bool :=
  listIncludes pat.toList s.toList

/-- The safety check of `evalAndCaptureOutput`: the submitted source text
contains one of the four denylisted substrings. -/
def isDangerous (code : String) : Bool :=
  strIncludes code "process.exit" || strIncludes code "require(" ||
    strIncludes code "import " || strIncludes code "eval("

/-- `xs.join(sep)` with a newline separator, as applied to each buffer at
the end of `evalAndCaptureOutput`. -/
def joinLines (xs : List String) : String :=
  String.intercalate "\n" xs

/-- The lines an event list pushes into the stdout buffer. -/
def logWrites : List Event → List String
  | [] => []
  | Event.log s :: es => s :: logWrites es
  | Event.err _ :: es => logWrites es

/-- The lines an event list pushes into the stderr buffer. -/
def errWrites : List Event → List String
  | [] => []
  | Event.log _ :: es => errWrites es
  | Event.err s :: es => s :: errWrites es

/-- Route the console writes of the evaluated code through the current
console handlers: a write on a captured channel is pushed into the
corresponding buffer, a write on a host channel goes to the terminal and is
not captured.  Returns the two buffers in program order. -/
def routeEvents (c : Console) : List Event → List String × List String
  | [] => ([], [])
  | e :: es =>
    let rest := routeEvents c es
    match e with
    | Event.log s =>
      match c.log with
      | Sink.captureInto _ => (s :: rest.1, rest.2)
      | Sink.channel _ => rest
    | Event.err s =>
      match c.error with
      | Sink.captureInto _ => (rest.1, s :: rest.2)
      | Sink.channel _ => rest

/-- Shallow embedding of `evalAndCaptureOutput` from the js-executor
service: save the current console handlers, redirect both channels into
fresh invocation-local buffers, then inside the try block reject any code
containing a denylisted substring by throwing (the thrown rejection, like
any error thrown by the evaluated code itself, is caught by the catch
block, which pushes its message onto the error buffer); finally restore
the console handlers and return the newline-joined buffers.  The result is
the console state after the call paired with the returned value. -/
def evalAndCaptureOutput (console : Console) (p : Program) :
    Console × ExecResult :=
  let oldLog := console.log
  let oldError := console.error
  let redirected : Console :=
    { log := Sink.captureInto 0, error := Sink.captureInto 1 }
  let buffers : List String × List String :=
    if isDangerous p.src then
      ([], ["Potentially dangerous code detected"])
    else
      let captured := routeEvents redirected p.events
      match p.outcome with
      | EvalOutcome.normal => captured
      | EvalOutcome.thrown msg => (captured.1, captured.2 ++ [msg])
  let restored : Console := { log := oldLog, error := oldError }
  (restored, { stdout := joinLines buffers.1, stderr := joinLines buffers.2 })

/-- The host console before any sandbox invocation. -/
def hostConsole : Console :=
  { log := Sink.channel 0, error := Sink.channel 1 }

/-- What the `fetch` call inside the `jsExecutor` tool handler produced: a
response (its `ok` flag, numeric HTTP status and parsed JSON body), or a
thrown failure (network error, unreachable sandbox, JSON parse failure)
carrying its message. -/
inductive FetchOutcome where
  | response (ok : Bool) (statusCode : Nat) (body : ExecResult)
  | fetchFailed (msg : String)
  deriving DecidableEq

/-- Shallow embedding of the `jsExecutor` tool handler from the agent
module: POST the code to the executor service; a response whose `ok` flag
is false is turned into a thrown `HTTP error! status: <status>`; any
thrown error, that one or a fetch failure, is caught and converted into
the result `{stdout: empty, stderr: Error executing code: <message>}`;
an `ok` response has its body returned as the tool result.  The network
interaction is abstracted as the `FetchOutcome` the `fetch` call
produced. -/
def jsExecutor (outcome : FetchOutcome) : ExecResult :=
  match outcome with
  | FetchOutcome.fetchFailed msg =>
    { stdout := "", stderr := "Error executing code: " ++ msg }
  | FetchOutcome.response ok statusCode body =>
    if ok then body
    else
      { stdout := "",
        stderr := "Error executing code: HTTP error! status: "
          ++ toString statusCode }

/-- The `jsExecutor` handler failed: the fetch threw, or the response had
a non-OK HTTP status. -/
def isFetchFailure : FetchOutcome → Bool
  | FetchOutcome.fetchFailed _ => true
  | FetchOutcome.response ok _ _ => !ok

/-- `pat.isPrefixOf s` lifted to strings. -/
def strBeginsWith (s pat : String) : Bool :=
  pat.toList.isPrefixOf s.toList

/-- The JSON body of a `/generate` request: the `prompt` and `thread_id`
fields, each possibly absent. -/
structure GenerateBody where
  prompt : Option String
  thread_id : Option String
  deriving DecidableEq

/-- JavaScript `thread_id || (default)` over the optional field: an absent
field (`undefined`) and the empty string are both falsy and are replaced
by the fixed identifier `default`. -/
def jsOrDefaultThread : Option String → String
  | none => "default"
  | some s => if s = "" then "default" else s

/-- What the `/generate` route handler does with a request body: reject it
with a 400 error, or invoke the agent with a prompt and a thread id. -/
inductive GenerateAction where
  | badRequest (error : String)
  | invokeAgent (prompt : String) (threadId : String)
  deriving DecidableEq

/-- Shallow embedding of the `/generate` route handler from the server
module: destructure `prompt` and `thread_id` from the body; a falsy
prompt (absent or empty) yields a 400 `Prompt is required` error;
otherwise the agent is invoked with the prompt and with
`thread_id || (default)` as the configurable thread id. -/
def handleGenerate (body : GenerateBody) : GenerateAction :=
  match body.prompt with
  | none => GenerateAction.badRequest "Prompt is required"
  | some p =>
    if p = "" then GenerateAction.badRequest "Prompt is required"
    else GenerateAction.invokeAgent p (jsOrDefaultThread body.thread_id)

/-- ASCII modelling of JavaScript `toLowerCase` (the denylist and the city
names involved are ASCII). -/
def jsToLower (s : String) : String :=
  String.mk (s.toList.map Char.toLower)

/-- Shallow embedding of the `weatherTool` handler from the agent module:
lower-case the query and test whether it includes the substring naming the
city; answer with the fixed foggy string for that city and with the fixed
sunny string otherwise. -/
def weatherTool (query : String) : String :=
  if strIncludes (jsToLower query) "san francisco" then
    "It\x27s 60 degrees and foggy."
  else
    "It\x27s 90 degrees and sunny."

/-- The lower-cased query contains the pattern, stated as an explicit
decomposition, independent of the scanning algorithm of `includes`. -/
def LowerContains (q pat : String) : Prop :=
  ∃ l r : List Char, (jsToLower q).toList = l ++ pat.toList ++ r

/-- One message of the conversation history. -/
structure AgentMsg where
  role : String
  content : String
  deriving DecidableEq

/-- One decision of the reasoning oracle: a final answer, or a request to
invoke one named tool with arguments. -/
inductive OracleStep where
  | finalAnswer (text : String)
  | toolRequest (name : String) (args : String)
  deriving DecidableEq

/-- Modelled from the spec: the Reason-Dispatch loop of the Agent
Orchestrator.  The loop itself lives in the external langchain
`createReactAgent` library and is not part of the repository source; the
spec describes it as a bounded ReAct loop that asks the oracle for the
next step, dispatches at most `cap` tool invocations per request
(appending each observation to the history), and, when the cap is
exceeded, yields a final answer stating the limit was reached.  Returns
the final answer paired with the number of Dispatch steps performed. -/
def reactLoop (oracle : List AgentMsg → OracleStep)
    (invokeTool : String → String → String) :
    Nat → List AgentMsg → String × Nat
  | 0, _ => ("Tool-call iteration limit reached.", 0)
  | fuel + 1, history =>
    match oracle history with
    | OracleStep.finalAnswer a => (a, 0)
    | OracleStep.toolRequest name args =>
      let next := reactLoop oracle invokeTool fuel
        (history ++ [{ role := "tool",
                       content := name ++ ": " ++ invokeTool name args }])
      (next.1, next.2 + 1)

/-- An oracle that requests a tool on every turn, never a final answer. -/
def greedyOracle : List AgentMsg → OracleStep :=
  fun _ => OracleStep.toolRequest "weather" "sf"

/-- A stub tool dispatcher returning a fixed observation. -/
def stubInvoke : String → String → String :=
  fun _ _ => "observation"

/-- A denylisted submission: its source contains a nested `eval(` call.
Its abstract behaviour, were it run, would print one line. -/
def dangerousProg : Program :=
  { src := "eval(2+2)", events := [Event.log "boom"],
    outcome := EvalOutcome.normal, duration := 3 }

/-- A submission that throws after writing one stderr line. -/
def throwingProg : Program :=
  { src := "console.error(1); boomFn()",
    events := [Event.err "1"],
    outcome := EvalOutcome.thrown "boomFn is not defined", duration := 2 }

/-- A submission that completes normally after two stdout writes. -/
def okProg : Program :=
  { src := "console.log(15*37); console.log(2)",
    events := [Event.log "555", Event.log "2"],
    outcome := EvalOutcome.normal, duration := 1 }

/-- A submission that writes one line and then throws. -/
def crashProg : Program :=
  { src := "console.log(1); thenBoom()",
    events := [Event.log "1"],
    outcome := EvalOutcome.thrown "thenBoom is not defined", duration := 2 }

/-- A submission that runs for a billion wall-clock units, far beyond any
configured budget, printing one line and completing normally. -/
def slowProg : Program :=
  { src := "slowFib(55); console.log(42)",
    events := [Event.log "42"],
    outcome := EvalOutcome.normal, duration := 1000000000 }

/-! ### Helper lemmas -/

/-- On the redirected console both channels are captured, so routing the
writes of the evaluated code yields exactly the `console.log` lines and the
`console.error` lines, each buffer in program order. -/
theorem routeEvents_captured (es : List Event) :
    routeEvents { log := Sink.captureInto 0, error := Sink.captureInto 1 } es
      = (logWrites es, errWrites es) := by
  induction es with
  | nil => rfl
  | cons e es ih => cases e <;> simp [routeEvents, logWrites, errWrites, ih]

/-- A character list begins with itself followed by anything. -/
theorem isPrefixOf_append_self (l r : List Char) :
    l.isPrefixOf (l ++ r) = true := by
  induction l with
  | nil => simp [List.isPrefixOf]
  | cons c cs ih => simp [List.isPrefixOf, ih]

/-- `List.isPrefixOf` agrees with the decomposition reading. -/
theorem isPrefixOf_iff_append (pat l : List Char) :
    pat.isPrefixOf l = true ↔ ∃ t, l = pat ++ t := by
  induction pat generalizing l with
  | nil => simp [List.isPrefixOf]
  | cons c cs ih =>
    cases l with
    | nil => simp [List.isPrefixOf]
    | cons d ds =>
      simp only [List.isPrefixOf, Bool.and_eq_true, beq_iff_eq, ih,
        List.cons_append, List.cons.injEq]
      constructor
      · rintro ⟨rfl, t, rfl⟩
        exact ⟨t, rfl, rfl⟩
      · rintro ⟨t, rfl, rfl⟩
        exact ⟨rfl, t, rfl⟩

/-- The `includes` scan finds the pattern exactly when the list splits
around a contiguous occurrence of it. -/
theorem listIncludes_iff_parts (pat l : List Char) :
    listIncludes pat l = true ↔ ∃ s t, l = s ++ pat ++ t := by
  induction l with
  | nil =>
    simp only [listIncludes, List.isEmpty_iff]
    constructor
    · rintro rfl
      exact ⟨[], [], rfl⟩
    · rintro ⟨s, t, h⟩
      rcases List.append_eq_nil.mp (List.append_eq_nil.mp h.symm).1 with ⟨-, h2⟩
      exact h2
  | cons c rest ih =>
    simp only [listIncludes, Bool.or_eq_true, isPrefixOf_iff_append, ih]
    constructor
    · rintro (⟨t, ht⟩ | ⟨s, t, rfl⟩)
      · exact ⟨[], t, by simpa using ht⟩
      · exact ⟨c :: s, t, rfl⟩
    · rintro ⟨s, t, h⟩
      cases s with
      | nil =>
        exact Or.inl ⟨t, by simpa using h⟩
      | cons a s =>
        simp only [List.cons_append] at h
        injection h with h1 h2
        exact Or.inr ⟨s, t, h2⟩

/-- `strIncludes` on strings agrees with the decomposition reading of the
underlying character lists. -/
theorem strIncludes_iff_parts (s pat : String) :
    strIncludes s pat = true ↔ ∃ l r, s.toList = l ++ pat.toList ++ r :=
  listIncludes_iff_parts pat.toList s.toList

/-- A string begins with its own left append factor. -/
theorem strBeginsWith_append (a b : String) :
    strBeginsWith (a ++ b) a = true := by
  obtain ⟨xs⟩ := a
  obtain ⟨ys⟩ := b
  exact isPrefixOf_append_self xs ys

/-! ### Claim theorems -/

/-- C1: for every code string containing one of the denylisted substrings
(`process.exit`, `require(`, a module keyword followed by a space, or
`eval(`), `evalAndCaptureOutput` returns a result with empty stdout and
stderr equal to `Potentially dangerous code detected`, regardless of the
behaviour the code would have had: the submission is never evaluated and
none of its output reaches either buffer. -/
theorem sandbox_rejects_denylisted (console : Console) (p : Program)
    (h : strIncludes p.src "process.exit" = true ∨
      strIncludes p.src "require(" = true ∨
      strIncludes p.src "import " = true ∨
      strIncludes p.src "eval(" = true) :
    (evalAndCaptureOutput console p).2 =
      { stdout := "", stderr := "Potentially dangerous code detected" } := by
  have hd : isDangerous p.src = true := by
    rcases h with h | h | h | h <;> simp [isDangerous, h]
  simp [evalAndCaptureOutput, hd, joinLines]
  exact ⟨rfl, rfl⟩

theorem sandbox_rejects_denylisted_witness :
    (evalAndCaptureOutput hostConsole dangerousProg).2 =
      { stdout := "", stderr := "Potentially dangerous code detected" } :=
  sandbox_rejects_denylisted hostConsole dangerousProg
    (Or.inr (Or.inr (Or.inr (by decide))))

/-- C2: for every code string that passes the filter and throws during
evaluation, `evalAndCaptureOutput` still returns a structured result: the
fault is caught at the execution boundary and its message appended as the
last entry of the error buffer, after any `console.error` output the code
produced, so nothing propagates past the function. -/
theorem sandbox_contains_runtime_fault (console : Console) (p : Program)
    (msg : String) (hsafe : isDangerous p.src = false)
    (hthrow : p.outcome = EvalOutcome.thrown msg) :
    (evalAndCaptureOutput console p).2 =
      { stdout := joinLines (logWrites p.events),
        stderr := joinLines (errWrites p.events ++ [msg]) } := by
  simp [evalAndCaptureOutput, hsafe, hthrow, routeEvents_captured]

theorem sandbox_contains_runtime_fault_witness :
    (evalAndCaptureOutput hostConsole throwingProg).2 =
      { stdout := joinLines (logWrites throwingProg.events),
        stderr := joinLines (errWrites throwingProg.events
          ++ ["boomFn is not defined"]) } :=
  sandbox_contains_runtime_fault hostConsole throwingProg
    "boomFn is not defined" (by decide) rfl

/-- C3 counterexample: `slowProg` runs for a billion wall-clock units,
beyond any configured budget (take one unit), yet the sandbox returns its
full output with empty stderr — the Ok wire encoding, not the Timeout
encoding of an empty stdout and an error text.  `evalAndCaptureOutput`
takes no time-budget parameter and enforces no timeout. -/
theorem sandbox_no_timeout_counterexample :
    slowProg.duration > 1 ∧
      (evalAndCaptureOutput hostConsole slowProg).2 =
        { stdout := "42", stderr := "" } ∧
      (evalAndCaptureOutput hostConsole slowProg).2.stdout ≠ "" := by
  exact ⟨by decide, by decide, by decide⟩

/-- C3 amended: the sandbox enforces no time budget: the result of
`evalAndCaptureOutput` is the same whatever the running time of the
submitted code, so code running past any budget is still run to completion
and no Timeout outcome exists. -/
theorem sandbox_ignores_duration (console : Console) (p : Program)
    (d : Nat) :
    evalAndCaptureOutput console { p with duration := d } =
      evalAndCaptureOutput console p := rfl

/-- C4: for every code string that passes the filter and completes
normally, writing only through the captured console channels,
`evalAndCaptureOutput` returns the stdout buffer holding exactly the
`console.log` writes in program order (newline-joined, as `join` does) and
the stderr buffer holding exactly the `console.error` writes — with no
error writes this is the Ok encoding of a populated stdout and an empty
stderr. -/
theorem sandbox_ok_output_in_order (console : Console) (p : Program)
    (hsafe : isDangerous p.src = false)
    (hnorm : p.outcome = EvalOutcome.normal) :
    (evalAndCaptureOutput console p).2 =
      { stdout := joinLines (logWrites p.events),
        stderr := joinLines (errWrites p.events) } := by
  simp [evalAndCaptureOutput, hsafe, hnorm, routeEvents_captured]

theorem sandbox_ok_output_in_order_witness :
    isDangerous okProg.src = false ∧
      (evalAndCaptureOutput hostConsole okProg).2 =
        { stdout := "555\n2", stderr := "" } :=
  ⟨by decide,
    (sandbox_ok_output_in_order hostConsole okProg (by decide) rfl).trans
      (by decide)⟩

/-- C5: for every code string that writes some stdout lines and then
throws, the stdout field of the result holds exactly the output captured
before the fault: it equals both the newline-joined `console.log` writes
and the stdout the same submission would produce when completing normally
— partial output is preserved, not discarded, on the error path. -/
theorem sandbox_preserves_partial_output (console : Console) (p : Program)
    (msg : String) (hsafe : isDangerous p.src = false)
    (hthrow : p.outcome = EvalOutcome.thrown msg) :
    (evalAndCaptureOutput console p).2.stdout =
        (evalAndCaptureOutput console
          { p with outcome := EvalOutcome.normal }).2.stdout ∧
      (evalAndCaptureOutput console p).2.stdout =
        joinLines (logWrites p.events) := by
  constructor <;>
    simp [evalAndCaptureOutput, hsafe, hthrow, routeEvents_captured]

theorem sandbox_preserves_partial_output_witness :
    (evalAndCaptureOutput hostConsole crashProg).2.stdout =
        (evalAndCaptureOutput hostConsole
          { crashProg with outcome := EvalOutcome.normal }).2.stdout ∧
      (evalAndCaptureOutput hostConsole crashProg).2.stdout =
        joinLines (logWrites crashProg.events) :=
  sandbox_preserves_partial_output hostConsole crashProg
    "thenBoom is not defined" (by decide) rfl

/-- C6: on every exit path of one invocation — safety rejection, normal
completion, or runtime fault — the console redirection is undone: the
console state after `evalAndCaptureOutput` returns equals the state it
held before the call, so a subsequent invocation never observes a previous
invocation's capture handlers. -/
theorem sandbox_restores_console (console : Console) (p : Program) :
    (evalAndCaptureOutput console p).1 = console := rfl

/-- C7: the Reason-Dispatch loop performs at most `cap` Dispatch steps for
every oracle, tool dispatcher, cap and starting history; and when the
oracle requests a tool on every turn the loop terminates exactly at the
cap with the final answer stating the limit was reached, rather than
looping unboundedly or crashing. -/
theorem orchestrator_dispatch_capped (oracle : List AgentMsg → OracleStep)
    (invokeTool : String → String → String) (cap : Nat)
    (history : List AgentMsg) :
    (reactLoop oracle invokeTool cap history).2 ≤ cap ∧
      ((∀ h, ∃ n a, oracle h = OracleStep.toolRequest n a) →
        reactLoop oracle invokeTool cap history =
          ("Tool-call iteration limit reached.", cap)) := by
  induction cap generalizing history with
  | zero => exact ⟨Nat.le_refl 0, fun _ => rfl⟩
  | succ k ih =>
    cases hstep : oracle history with
    | finalAnswer a =>
      refine ⟨by simp [reactLoop, hstep], fun hall => ?_⟩
      obtain ⟨n, args, hna⟩ := hall history
      rw [hstep] at hna
      cases hna
    | toolRequest name args =>
      have hrec := ih (history ++
        [AgentMsg.mk "tool" (name ++ ": " ++ invokeTool name args)])
      refine ⟨?_, fun hall => ?_⟩
      · simp only [reactLoop, hstep]
        exact Nat.succ_le_succ hrec.1
      · simp [reactLoop, hstep, hrec.2 hall]

theorem orchestrator_dispatch_capped_witness :
    (reactLoop greedyOracle stubInvoke 5 []).2 ≤ 5 ∧
      reactLoop greedyOracle stubInvoke 5 [] =
        ("Tool-call iteration limit reached.", 5) :=
  ⟨(orchestrator_dispatch_capped greedyOracle stubInvoke 5 []).1,
    (orchestrator_dispatch_capped greedyOracle stubInvoke 5 []).2
      (fun _ => ⟨"weather", "sf", rfl⟩)⟩

/-- C8: whenever the `jsExecutor` tool handler fails — the fetch to the
Execution Sandbox threw, or the response carried a non-OK HTTP status —
the handler returns a tool-level result with empty stdout and a stderr
that begins with the descriptive `Error executing code:` text; being a
returned value of the total `jsExecutor` function, the failure is data and
is never rethrown into the orchestrator loop. -/
theorem tool_failure_is_data (o : FetchOutcome)
    (h : isFetchFailure o = true) :
    (jsExecutor o).stdout = "" ∧
      strBeginsWith (jsExecutor o).stderr "Error executing code: " = true := by
  cases o with
  | fetchFailed msg =>
    exact ⟨rfl, strBeginsWith_append "Error executing code: " msg⟩
  | response ok statusCode body =>
    have hok : ok = false := by
      cases ok
      · rfl
      · simp [isFetchFailure] at h
    subst hok
    exact ⟨rfl, strBeginsWith_append "Error executing code: " _⟩

theorem tool_failure_is_data_witness :
    (jsExecutor (FetchOutcome.fetchFailed "fetch failed")).stdout = "" ∧
      strBeginsWith (jsExecutor (FetchOutcome.fetchFailed "fetch failed")).stderr
        "Error executing code: " = true :=
  tool_failure_is_data (FetchOutcome.fetchFailed "fetch failed") rfl

/-- C9: a `/generate` request arriving without a `thread_id` field (and
with a usable prompt) invokes the agent under the fixed thread identifier
`default`; since that identifier is the same for every such request, they
all read and append to one shared conversation history instead of each
getting a fresh thread. -/
theorem generate_thread_defaults (body : GenerateBody) (p : String)
    (hthread : body.thread_id = none) (hprompt : body.prompt = some p)
    (hp : p ≠ "") :
    handleGenerate body = GenerateAction.invokeAgent p "default" := by
  simp [handleGenerate, hprompt, hp, hthread, jsOrDefaultThread]

theorem generate_thread_defaults_witness :
    handleGenerate { prompt := some "hello", thread_id := none } =
      GenerateAction.invokeAgent "hello" "default" :=
  generate_thread_defaults { prompt := some "hello", thread_id := none }
    "hello" rfl rfl (by decide)

/-- C10: the weather tool answers with the fixed foggy string exactly when
the lower-cased query contains the city substring — stated through the
`LowerContains` decomposition, independent of the scanning algorithm — and
with the fixed sunny string otherwise. -/
theorem weather_by_city (q : String) :
    (LowerContains q "san francisco" →
      weatherTool q = "It\x27s 60 degrees and foggy.") ∧
    (¬ LowerContains q "san francisco" →
      weatherTool q = "It\x27s 90 degrees and sunny.") := by
  have hiff : strIncludes (jsToLower q) "san francisco" = true ↔
      LowerContains q "san francisco" :=
    strIncludes_iff_parts (jsToLower q) "san francisco"
  constructor
  · intro h
    simp [weatherTool, hiff.mpr h]
  · intro h
    have hfalse : strIncludes (jsToLower q) "san francisco" = false := by
      cases hb : strIncludes (jsToLower q) "san francisco"
      · rfl
      · exact absurd (hiff.mp hb) h
    simp [weatherTool, hfalse]

theorem weather_by_city_witness :
    weatherTool "Weather in San Francisco please" =
      "It\x27s 60 degrees and foggy." :=
  (weather_by_city "Weather in San Francisco please").1
    ((strIncludes_iff_parts (jsToLower "Weather in San Francisco please")
      "san francisco").mp (by decide))

end GeminiAgent
